import Mathlib

/-!
Shallow embedding of the FTR valuation engine of `euro-interconnector-pipeline`
(`src/fundie/ftr`): spread builder, curve preparation, block-bootstrap sampler,
pricing engine, contract model and data-version cache, together with proofs of
the specified properties.

Modelling conventions (stated once here, referenced in the doc comments):
* pandas floats are modelled as `EFloat := Option ℚ`, `none` playing the role
  of `NaN`; arithmetic propagates `none` and the pandas reductions
  (`mean`, `std`, `quantile`) skip `none` entries, returning `none` when no
  finite value remains — exactly pandas' NaN-skipping behaviour;
* timestamps are modelled as integers counting hours (the engine's data is
  hourly and timezone coercion maps every input to a UTC instant; the
  `tz_in` localisation is the identity on this already-UTC domain, and
  `pd.date_range(lo, hi, freq="h")` becomes the integer range `[lo, hi]`);
* a pandas Series is an association list `List (ℤ × EFloat)` of
  (UTC hour, value) pairs; the constructors used by the code
  (`groupby(...).mean()` + sort, `reindex`, `ffill`, `bfill`, inner `concat`)
  are embedded one by one;
* Python's `random.Random` (Mersenne Twister) is modelled by a concrete
  deterministic pure stream (`rngNext`, a 64-bit linear congruential step);
  every property proved below depends only on the two facts the code relies
  on — the stream is a pure function of `settings.seed`, and
  `randrange(0, n)` returns a value `< n` — never on particular draws;
* `hashlib.sha256` and the per-row `pd.util.hash_pandas_object` are modelled
  by injective encodings (an ideal collision-free hash): `shaModel` is an
  injective `List ℕ → ℕ` and a digest fed back into an outer hash occupies a
  fixed-width chunk, as the real 64-character hexdigest does.
-/

/-- The error taxonomy of the engine.  The Python code raises `ValueError`
everywhere; constructors correspond one-to-one to the distinct raise sites
(the spec's `DataError` / `ModelError` / `ContractError` families). -/
inductive FTRError where
  | noPricesForNode (node : String)
  | emptyResidual
  | noFiniteResidual
  | nHoursTooSmall
  | unsupportedModel (model : String)
  | contractTypeNotObligation
  | invalidContractType (value : String)
  deriving DecidableEq, Repr

deriving instance DecidableEq for Except

/-- pandas float: `none` is NaN. -/
abbrev EFloat := Option ℚ

/-- Addition with NaN propagation (`x + y` on floats). -/
def eadd (x y : EFloat) : EFloat :=
  match x, y with
  | some a, some b => some (a + b)
  | _, _ => none

/-- Subtraction with NaN propagation (`x - y` on floats). -/
def esub (x y : EFloat) : EFloat :=
  match x, y with
  | some a, some b => some (a - b)
  | _, _ => none

/-- Multiplication with NaN propagation (`x * y` on floats). -/
def emul (x y : EFloat) : EFloat :=
  match x, y with
  | some a, some b => some (a * b)
  | _, _ => none

/-- pandas mean: skip NaN; NaN when no finite value remains (also on empty). -/
def emean (xs : List EFloat) : EFloat :=
  let vs := xs.filterMap id
  if vs.isEmpty then none else some (vs.sum / vs.length)

/-- A pandas Series with UTC-hour index: association list of (hour, value). -/
abbrev Series := List (ℤ × EFloat)

/-- `series.mean()`. -/
def seriesMean (s : Series) : EFloat := emean (s.map Prod.snd)

/-- The index (timestamp list) of a series. -/
def seriesKeys (s : Series) : List ℤ := s.map Prod.fst

/-- `missing_hour_policy` values (`config/settings.py`). -/
inductive MissingHourPolicy where
  | drop
  | ffill
  deriving DecidableEq, Repr

/-- `FTRSettings` (`config/settings.py`): the recognized options.  `cache_dir`
is kept as its path string; the pydantic validators (`n_scenarios ≥ 1`,
`block_length_days ≥ 1`, `seed ≥ 0`) restrict construction but the engine
functions below take any settings value, as in the source. -/
structure FTRSettings where
  cache_dir : String
  tz_in : String
  n_scenarios : ℕ
  block_length_days : ℕ
  seed : ℕ
  missing_hour_policy : MissingHourPolicy
  deriving DecidableEq, Repr

/-! ### Block-bootstrap sampler (`models/hs.py`) -/

/-- One step of the deterministic RNG stream: models Python's
`random.Random(seed)` Mersenne–Twister stream by a concrete pure 64-bit
step.  No theorem below depends on the values drawn, only on purity and on
the `randrange` bound. -/
def rngNext (s : ℕ) : ℕ :=
  (6364136223846793005 * s + 1442695040888963407) % 2 ^ 64

/-- `rng.randrange(0, n)`: a value `< n` plus the advanced stream state. -/
def randrange (s n : ℕ) : ℕ × ℕ :=
  let s2 := rngNext s
  (s2 % n, s2)

/-- `_block_length_hours` (`models/hs.py` lines 11–15): `block_length_days * 24`,
raised to at least 1, capped at `max(series_len, 1)`. -/
def blockLengthHours (seriesLen : ℕ) (settings : FTRSettings) : ℕ :=
  let blockLen := settings.block_length_days * 24
  let blockLen := if blockLen < 1 then 1 else blockLen
  min blockLen (max seriesLen 1)

/-- `_take_block` (`models/hs.py` lines 18–24): a contiguous block of
`blockLen` values starting at `start`, wrapping circularly past the end. -/
def takeBlock (values : List ℚ) (start blockLen : ℕ) : List ℚ :=
  let e := start + blockLen
  if e ≤ values.length then (values.drop start).take blockLen
  else values.drop start ++ values.take (e - values.length)

/-- The `while len(draws) < n_hours` loop of `bootstrap_scenarios`: extend
`draws` by one block per iteration.  `fuel` bounds the iteration count; with
a non-empty block (`blockLen ≥ 1`) fuel `nHours` always suffices, which the
length theorem below proves. -/
def drawLoop (values : List ℚ) (blockLen nHours : ℕ) :
    ℕ → ℕ → List ℚ → List ℚ × ℕ
  | 0, st, draws => (draws, st)
  | fuel + 1, st, draws =>
    if draws.length < nHours then
      let p := randrange st values.length
      drawLoop values blockLen nHours fuel p.2 (draws ++ takeBlock values p.1 blockLen)
    else (draws, st)

/-- The `for _ in range(settings.n_scenarios)` loop of `bootstrap_scenarios`:
produce `k` scenarios, threading the RNG state, truncating each scenario's
draws to `nHours` (`draws[:n_hours]`). -/
def scenLoop (values : List ℚ) (blockLen nHours : ℕ) : ℕ → ℕ → List (List ℚ)
  | 0, _ => []
  | k + 1, st =>
    let p := drawLoop values blockLen nHours nHours st []
    p.1.take nHours :: scenLoop values blockLen nHours k p.2

/-- `bootstrap_scenarios` (`models/hs.py` lines 27–53).  Rejects
`n_hours < 1`, an empty residual series, and a residual series with no
finite value after `dropna()`; otherwise block-bootstraps with the RNG
freshly seeded from `settings.seed`. -/
def bootstrap_scenarios (residual_series : Series) (n_hours : ℕ)
    (settings : FTRSettings) : Except FTRError (List (List ℚ)) :=
  if n_hours < 1 then .error .nHoursTooSmall
  else if residual_series.isEmpty then .error .emptyResidual
  else
    let values := residual_series.filterMap Prod.snd
    if values.isEmpty then .error .noFiniteResidual
    else
      let blockLen := blockLengthHours values.length settings
      .ok (scenLoop values blockLen n_hours settings.n_scenarios settings.seed)

/-! ### Spread builder and curve preparation (`features/spreads.py`) -/

/-- A row of the price table: `(timestamp, node, price)`.  The timestamp is
the already-UTC hour (see the module comment); `_pick_timestamp_column` and
`_coerce_timestamp` are structural identities on this domain. -/
structure PriceRow where
  ts : ℤ
  node : String
  price : EFloat
  deriving DecidableEq, Repr

/-- Insert into an ascending list (helper for the index sort). -/
def insertAsc (x : ℤ) : List ℤ → List ℤ
  | [] => [x]
  | y :: t => if x ≤ y then x :: y :: t else y :: insertAsc x t

/-- Ascending insertion sort on timestamps (`sort_values` / `sort_index`). -/
def sortAsc : List ℤ → List ℤ
  | [] => []
  | x :: t => insertAsc x (sortAsc t)

/-- `groupby("timestamp_utc")[col].mean()` followed by an ascending sort:
one entry per distinct timestamp carrying the NaN-skipping mean of that
timestamp's values. -/
def groupMeanByTs (rows : List (ℤ × EFloat)) : Series :=
  (sortAsc (rows.map Prod.fst).dedup).map
    (fun t => (t, emean (rows.filterMap (fun p => if p.1 = t then some p.2 else none))))

/-- Positional lookup of a timestamp in a series (`series.loc[t]`, first hit). -/
def lookupTs (s : Series) (t : ℤ) : Option EFloat :=
  (s.find? (fun p => p.1 = t)).map Prod.snd

/-- `pd.date_range(lo, hi, freq="h")`, inclusive of both ends, on hour
numbers. -/
def hourRangeIncl (lo hi : ℤ) : List ℤ :=
  (List.range ((hi - lo).toNat + 1)).map (fun i => lo + i)

/-- The walk behind `reindex(full_index).ffill()`: at each grid hour emit the
series' finite value if present (updating the carry), otherwise the carried
last finite value (`none` while no finite value has been seen). -/
def ffillWalk (s : Series) : EFloat → List ℤ → Series
  | _, [] => []
  | carry, t :: ts =>
    match lookupTs s t with
    | some (some v) => (t, some v) :: ffillWalk s (some v) ts
    | _ => (t, carry) :: ffillWalk s carry ts

/-- `series.reindex(pd.date_range(min, max, freq="h")).ffill()`
(`features/spreads.py` lines 43–45). -/
def ffillReindex (s : Series) : Series :=
  match s with
  | [] => []
  | (t0, _) :: _ =>
    let keys := s.map Prod.fst
    ffillWalk s none (hourRangeIncl (keys.foldl min t0) (keys.foldl max t0))

/-- `_prepare_node_prices` (`features/spreads.py` lines 27–46): select the
node's rows (`DataError` when none exist), average duplicate timestamps,
sort, and apply the missing-hour policy. -/
def prepareNodePrices (prices_df : List PriceRow) (node : String)
    (missing_policy : MissingHourPolicy) : Except FTRError Series :=
  let subset := prices_df.filter (fun r => r.node = node)
  if subset.isEmpty then .error (.noPricesForNode node)
  else
    let series := groupMeanByTs (subset.map (fun r => (r.ts, r.price)))
    match missing_policy with
    | .ffill => .ok (ffillReindex series)
    | .drop => .ok series

/-- `pd.concat({source, sink}, axis=1, join="inner")` followed by
`joined["sink"] - joined["source"]`: for each source entry whose timestamp
the sink series also carries, emit sink value minus source value. -/
def innerJoinSpread (source sink : Series) : Series :=
  source.filterMap (fun p => (lookupTs sink p.1).map (fun v => (p.1, esub v p.2)))

/-- `compute_spread_series` (`features/spreads.py` lines 49–61). -/
def compute_spread_series (prices_df : List PriceRow) (source sink : String)
    (missing_policy : MissingHourPolicy) : Except FTRError Series := do
  let source_series ← prepareNodePrices prices_df source missing_policy
  let sink_series ← prepareNodePrices prices_df sink missing_policy
  pure (innerJoinSpread source_series sink_series)

/-- Positional `ffill` on a value list, carrying the last finite value. -/
def ffillList : List EFloat → EFloat → List EFloat
  | [], _ => []
  | some v :: t, _ => some v :: ffillList t (some v)
  | none :: t, carry => carry :: ffillList t carry

/-- Positional `bfill`: `ffill` on the reversed list. -/
def bfillList (xs : List EFloat) : List EFloat :=
  (ffillList xs.reverse none).reverse

/-- `prepare_curve` (`features/spreads.py` lines 64–82): average duplicate
curve timestamps, sort, reindex onto the contract hours (missing hours become
NaN), and — when any value is missing — forward-fill then backward-fill.
The curve table is modelled as its `(timestamp, spread)` rows; the
`spread`/`expected_spread` column pick is structural in this embedding. -/
def prepare_curve (curve_df : List (ℤ × EFloat)) (contract_hours : List ℤ) :
    Series :=
  let grouped := groupMeanByTs curve_df
  let reindexed := contract_hours.map (fun t => (t, (lookupTs grouped t).join))
  if (reindexed.map Prod.snd).any Option.isNone then
    contract_hours.zip (bfillList (ffillList (reindexed.map Prod.snd) none))
  else reindexed

/-! ### Contract model (`core/types.py`) and time utilities (`core/time.py`) -/

/-- `ContractType` (`core/types.py` lines 12–14). -/
inductive ContractType where
  | obligation
  | option
  deriving DecidableEq, Repr

/-- `ContractType(value)` on a string (`StrEnum` construction): unknown
values raise. -/
def ContractType.ofString : String → Except FTRError ContractType
  | "obligation" => .ok .obligation
  | "option" => .ok .option
  | s => .error (.invalidContractType s)

/-- `ContractSpec` (`core/types.py` lines 17–27): the post-construction
record. -/
structure ContractSpec where
  source : String
  sink : String
  start_utc : ℤ
  end_utc : ℤ
  mw : ℚ
  contract_type : ContractType
  contract_id : Option String
  deriving DecidableEq, Repr

/-- Dataclass construction of `ContractSpec` including `__post_init__`
(`core/types.py` lines 29–31): any non-obligation contract type raises. -/
def ContractSpec.make (source sink : String) (start_utc end_utc : ℤ) (mw : ℚ)
    (contract_type : ContractType) (contract_id : Option String) :
    Except FTRError ContractSpec :=
  if contract_type ≠ ContractType.obligation then .error .contractTypeNotObligation
  else .ok ⟨source, sink, start_utc, end_utc, mw, contract_type, contract_id⟩

/-- `ContractSpec.from_dict` (`core/types.py` lines 33–44): parse the
contract type string via the enum, then construct (running
`__post_init__`).  Timestamp parsing is the identity on the integer-hour
domain. -/
def ContractSpec.from_dict (source sink : String) (start_utc end_utc : ℤ)
    (mw : ℚ) (contract_type : String) (contract_id : Option String) :
    Except FTRError ContractSpec := do
  let ct ← ContractType.ofString contract_type
  ContractSpec.make source sink start_utc end_utc mw ct contract_id

/-- `hourly_index_utc` (`core/time.py` lines 21–24): every UTC hour in
`[start_utc, end_utc)`, left-inclusive; empty when `end_utc ≤ start_utc`. -/
def hourly_index_utc (start_utc end_utc : ℤ) : List ℤ :=
  (List.range (end_utc - start_utc).toNat).map (fun i => start_utc + Int.ofNat i)

/-! ### Data-version cache (`data/cache.py`) -/

/-- Injective encoding of a list of naturals into one natural
(`Nat.pair`-chain); the ideal-hash model of a byte stream digest. -/
def encodeNatList (l : List ℕ) : ℕ :=
  l.foldr (fun a acc => Nat.pair a acc + 1) 0

/-- Injective embedding of `ℤ` into `ℕ`. -/
def encodeInt (z : ℤ) : ℕ :=
  if z < 0 then 2 * (-z).toNat - 1 else 2 * z.toNat

/-- The UTF code points of a string (`str.encode("utf-8")` as symbols). -/
def strBytes (s : String) : List ℕ := s.data.map Char.toNat

/-- Injective encoding of a string into one natural. -/
def strEnc (s : String) : ℕ := encodeNatList (strBytes s)

/-- Injective encoding of the policy literal. -/
def polEnc : MissingHourPolicy → ℕ
  | .drop => 0
  | .ffill => 1

/-- `json.dumps(settings.model_dump(mode="json"), sort_keys=True).encode()`:
the sorted-keys JSON of the six settings fields, modelled as a single
fixed-width injectively-encoded chunk (the JSON template is fixed, so the
real byte string is injective in the field values as well). -/
def settingsJsonBytes (s : FTRSettings) : List ℕ :=
  [Nat.pair (strEnc s.cache_dir) (Nat.pair (strEnc s.tz_in)
    (Nat.pair s.n_scenarios (Nat.pair s.block_length_days
      (Nat.pair s.seed (polEnc s.missing_hour_policy)))))]

/-- A pandas DataFrame as fed to `pd.util.hash_pandas_object(df, index=True)`:
a list of rows, each row the index label followed by the cell values, all
numerically encoded. -/
abbrev DataFrame := List (List ℤ)

/-- The ideal-hash model of `hashlib.sha256(...).digest()` over a stream of
update chunks: injective in the stream. -/
def shaModel (stream : List ℕ) : ℕ := encodeNatList stream

/-- `pd.util.hash_pandas_object(df, index=True).values`: one 64-bit word per
row, in row order.  The `256 +` offset models that these 8-byte words are
disjoint from the 5-byte ASCII marker `b"empty"` used for empty frames. -/
def hash_pandas_object (df : DataFrame) : List ℕ :=
  df.map (fun row => 256 + encodeNatList (row.map encodeInt))

/-- `_hash_dataframe` (`data/cache.py` lines 27–31): sha256 of `b"empty"`
for an empty frame, otherwise sha256 of the row-hash words in row order. -/
def hash_dataframe (df : DataFrame) : ℕ :=
  if df.isEmpty then shaModel (strBytes "empty")
  else shaModel (hash_pandas_object df)

/-- A digest fed back into an outer digest (`digest.hexdigest().encode()`):
one fixed-width chunk. -/
def hexChunk (digest : ℕ) : List ℕ := [digest]

/-- `compute_data_version` (`data/cache.py` lines 34–54): one sha256 stream
over the code version bytes, the serialized-settings bytes, each file's
posix path and content digest, and each dataframe's content digest. -/
def compute_data_version (file_paths : Option (List (String × List ℕ)))
    (settings : FTRSettings) (code_version : String)
    (dataframes : Option (List DataFrame)) : ℕ :=
  let stream := strBytes code_version ++ settingsJsonBytes settings
  let stream := stream ++
    (match file_paths with
     | none => []
     | some fps => fps.flatMap (fun fp => strBytes fp.1 ++ hexChunk (shaModel fp.2)))
  let stream := stream ++
    (match dataframes with
     | none => []
     | some dfs => dfs.flatMap (fun df => hexChunk (hash_dataframe df)))
  shaModel stream

/-! ### Pricing engine (`pricing/engine.py`) -/

/-- Modelled from the spec: `fundie.ftr.version.__version__` (the version
module is not among the sources); an opaque code/model version string.  No
property below depends on its value. -/
def codeVersion : String := "0.1.0"

/-- `_payoff` (`pricing/engine.py` lines 24–27): option payoffs floor at
zero (`max(spread, 0.0)`, NaN passing through as Python `max` keeps its
first argument against NaN), obligation payoffs are the identity. -/
def payoff (spread : EFloat) (contract_type : ContractType) : EFloat :=
  if contract_type = ContractType.option then
    match spread with
    | some v => some (max v 0)
    | none => none
  else spread

/-- The per-scenario accumulation of `_price_hs`: `payoff += _payoff(base +
residual, contract_type)` over the zipped curve values and scenario draws
(`zip(..., strict=True)`; the strictness check never fires because curve and
scenario lengths agree, which the shape theorem proves). -/
def scenarioPayoff (base : List EFloat) (scenario : List ℚ)
    (contract_type : ContractType) : EFloat :=
  (base.zip scenario).foldl
    (fun acc p => eadd acc (payoff (eadd p.1 (some p.2)) contract_type)) (some 0)

/-- `_price_hs` (`pricing/engine.py` lines 30–47): residuals are the spread
history minus its mean; bootstrap `n_hours = len(curve_series)` scenarios and
sum each scenario's per-hour payoffs. -/
def price_hs (spread_history : Series) (curve_series : Series)
    (contract_type : ContractType) (settings : FTRSettings) :
    Except FTRError (List EFloat) := do
  let m := seriesMean spread_history
  let residuals : Series := spread_history.map (fun p => (p.1, esub p.2 m))
  let scenarios ← bootstrap_scenarios residuals curve_series.length settings
  pure (scenarios.map (fun s => scenarioPayoff (curve_series.map Prod.snd) s contract_type))

/-- Population variance, NaN-skipping: the square of `payoffs.std(ddof=0)`.
The standard deviation itself is irrational in general, so the result record
carries its square; every specified property of the stdev used below is of
the form `stdev = 0`, equivalent to `variance = 0`. -/
def evarPop (xs : List EFloat) : EFloat :=
  let vs := xs.filterMap id
  if vs.isEmpty then none
  else
    let m : ℚ := vs.sum / vs.length
    some ((vs.map (fun v => (v - m) ^ 2)).sum / vs.length)

/-- Insertion into an ascending rational list. -/
def insertAscQ (x : ℚ) : List ℚ → List ℚ
  | [] => [x]
  | y :: t => if x ≤ y then x :: y :: t else y :: insertAscQ x t

/-- Ascending insertion sort on rationals. -/
def sortAscQ : List ℚ → List ℚ
  | [] => []
  | x :: t => insertAscQ x (sortAscQ t)

/-- `series.quantile(q)` with pandas' default linear interpolation,
NaN-skipping: position `h = q * (n - 1)` into the ascending values,
interpolating between the neighbouring order statistics. -/
def quantileLinear (q : ℚ) (xs : List EFloat) : EFloat :=
  let vs := sortAscQ (xs.filterMap id)
  if vs.length = 0 then none
  else
    let n := vs.length
    let h : ℚ := q * (n - 1)
    let i : ℕ := (Int.floor h).toNat
    let lo := vs.getD (min i (n - 1)) 0
    let hi := vs.getD (min (i + 1) (n - 1)) 0
    some (lo + (h - i) * (hi - lo))

/-- `ValuationResult` (`core/types.py` lines 47–59); the `metadata` map's
three entries are carried as the fields `hours`, `spread_mean`,
`curve_mean`.  `stdev_sq_payoff` carries the square of `stdev_payoff` (see
`evarPop`). -/
structure ValuationResult where
  contract_id : Option String
  price : EFloat
  currency : String
  mean_payoff : EFloat
  stdev_sq_payoff : EFloat
  p5_payoff : EFloat
  p95_payoff : EFloat
  n_scenarios : ℕ
  model : String
  data_version : ℕ
  hours : ℕ
  spread_mean : EFloat
  curve_mean : EFloat
  deriving DecidableEq, Repr

/-- The curve series the engine uses (`pricing/engine.py` lines 68–72): a
supplied curve table goes through `prepare_curve`; with `curve = None` the
flat historical spread mean is repeated over every contract hour. -/
def engineCurveSeries (curve : Option (List (ℤ × EFloat)))
    (contract_hours : List ℤ) (spread_series : Series) : Series :=
  match curve with
  | some c => prepare_curve c contract_hours
  | none => contract_hours.map (fun h => (h, seriesMean spread_series))

/-- The dataframe handed to the hasher for the price table (row order and
`RangeIndex` labels included, as `hash_pandas_object(df, index=True)` sees
them). -/
def priceDF (prices_df : List PriceRow) : DataFrame :=
  prices_df.enum.map (fun p =>
    [(p.1 : ℤ), p.2.ts, (strEnc p.2.node : ℤ),
     (match p.2.price with
      | none => 0
      | some q => 1 + (Nat.pair (encodeInt q.num) q.den : ℤ))])

/-- The dataframe handed to the hasher for the curve table. -/
def curveDF (curve_df : List (ℤ × EFloat)) : DataFrame :=
  curve_df.enum.map (fun p =>
    [(p.1 : ℤ), p.2.1,
     (match p.2.2 with
      | none => 0
      | some q => 1 + (Nat.pair (encodeInt q.num) q.den : ℤ))])

/-- `[curve] if curve is not None else []`: the optional curve table's
contribution to the hashed dataframes. -/
def curveDFList : Option (List (ℤ × EFloat)) → List DataFrame
  | some c => [curveDF c]
  | none => []

/-- `price_contract` (`pricing/engine.py` lines 50–108), in the source's
order: build the spread series, the contract-hour index and the curve
series, then validate the model name, run historical simulation, scale by
`mw`, hash the inputs into `data_version` and assemble the result. -/
def price_contract (contract_spec : ContractSpec) (prices_df : List PriceRow)
    (curve : Option (List (ℤ × EFloat))) (model : String)
    (settings : FTRSettings) : Except FTRError ValuationResult := do
  let spread_series ← compute_spread_series prices_df contract_spec.source
    contract_spec.sink settings.missing_hour_policy
  let contract_hours := hourly_index_utc contract_spec.start_utc contract_spec.end_utc
  let curve_series := engineCurveSeries curve contract_hours spread_series
  if model ≠ "hs" then throw (.unsupportedModel model)
  else do
    let scenario_payoffs ← price_hs spread_series curve_series
      contract_spec.contract_type settings
    let payoffs := scenario_payoffs.map (fun p => emul p (some contract_spec.mw))
    let data_version := compute_data_version none settings codeVersion
      (some (priceDF prices_df :: curveDFList curve))
    pure {
      contract_id := contract_spec.contract_id
      price := emean payoffs
      currency := "EUR"
      mean_payoff := emean payoffs
      stdev_sq_payoff := evarPop payoffs
      p5_payoff := quantileLinear (5 / 100) payoffs
      p95_payoff := quantileLinear (95 / 100) payoffs
      n_scenarios := payoffs.length
      model := model
      data_version := data_version
      hours := contract_hours.length
      spread_mean := seriesMean spread_series
      curve_mean := seriesMean curve_series
    }

/-- Whether a pricing call returned a result (rather than raising). -/
def resultIsOk {α : Type} : Except FTRError α → Bool
  | .ok _ => true
  | .error _ => false

/-- The `price` field of a returned pricing result. -/
def resultPrice : Except FTRError ValuationResult → Option EFloat
  | .ok r => some r.price
  | .error _ => none

/-! ### Concrete fixtures shared by the end-to-end properties -/

/-- A two-node price history over hours 100–103 with both nodes priced 0
(spread identically 0). -/
def pricesFixture : List PriceRow :=
  [⟨100, "A", some 0⟩, ⟨101, "A", some 0⟩, ⟨102, "A", some 0⟩,
   ⟨103, "A", some 0⟩, ⟨100, "B", some 0⟩, ⟨101, "B", some 0⟩,
   ⟨102, "B", some 0⟩, ⟨103, "B", some 0⟩]

/-- A flat forward curve of −5 over the three contract hours 200–202. -/
def curveFixture : List (ℤ × EFloat) :=
  [(200, some (-5)), (201, some (-5)), (202, some (-5))]

/-- One-scenario settings with seed 0 and one-day blocks. -/
def settingsFixture : FTRSettings := ⟨"", "UTC", 1, 1, 0, .drop⟩

/-- The spread series `pricesFixture` induces (identically zero). -/
def spreadFixture : Series :=
  [(100, some 0), (101, some 0), (102, some 0), (103, some 0)]

/-! ### Helper lemmas -/

theorem ok_bind {α β : Type} (a : α) (f : α → Except FTRError β) :
    (Except.ok a >>= f) = f a := rfl

theorem error_bind {α β : Type} (e : FTRError) (f : α → Except FTRError β) :
    ((Except.error e : Except FTRError α) >>= f) = .error e := rfl

theorem throw_eq {α : Type} (e : FTRError) :
    (throw e : Except FTRError α) = .error e := rfl

/-! ### C1 -/

/-- C1: Determinism.  `price_contract` is a pure function of
`(spec, prices, curve, model, settings)` — two calls with identical inputs
return the identical `ValuationResult` — and `bootstrap_scenarios` depends
on the settings only through `(seed, block_length_days, n_scenarios)`: the
RNG is freshly seeded from `settings.seed` at each call, so two calls with
the same residual series, horizon and those three settings fields return
identical scenario arrays. -/
theorem price_contract_deterministic :
    (∀ (spec : ContractSpec) (prices : List PriceRow)
       (curve : Option (List (ℤ × EFloat))) (model : String)
       (s₁ s₂ : FTRSettings), s₁ = s₂ →
       price_contract spec prices curve model s₁ =
         price_contract spec prices curve model s₂) ∧
    (∀ (residual : Series) (n_hours : ℕ) (s₁ s₂ : FTRSettings),
       s₁.seed = s₂.seed → s₁.block_length_days = s₂.block_length_days →
       s₁.n_scenarios = s₂.n_scenarios →
       bootstrap_scenarios residual n_hours s₁ =
         bootstrap_scenarios residual n_hours s₂) := by
  constructor
  · intro spec prices curve model s₁ s₂ h
    rw [h]
  · intro residual n_hours s₁ s₂ h1 h2 h3
    unfold bootstrap_scenarios blockLengthHours
    rw [h1, h2, h3]

/-- Closed instance of `price_contract_deterministic`. -/
theorem price_contract_deterministic_witness :
    price_contract ⟨"A", "B", 200, 203, 2, .obligation, none⟩ [] none "hs"
        ⟨"", "UTC", 1, 1, 0, .drop⟩ =
      price_contract ⟨"A", "B", 200, 203, 2, .obligation, none⟩ [] none "hs"
        ⟨"", "UTC", 1, 1, 0, .drop⟩ ∧
    bootstrap_scenarios [(0, some 1)] 2 ⟨"", "UTC", 1, 1, 0, .drop⟩ =
      bootstrap_scenarios [(0, some 1)] 2 ⟨"x", "CET", 1, 1, 0, .ffill⟩ :=
  ⟨price_contract_deterministic.1 _ _ _ _ _ _ rfl,
   price_contract_deterministic.2 _ _ _ _ rfl rfl rfl⟩

/-! ### C7 -/

/-- C7: Curve fallback.  With `curve = None` the curve series the engine
uses (`engineCurveSeries`, `pricing/engine.py` lines 68–72) is the
full-history spread mean repeated over every contract hour: its index is
exactly the contract hours and every value equals `seriesMean
spread_series`. -/
theorem curve_fallback_flat_mean (contract_hours : List ℤ)
    (spread_series : Series) :
    engineCurveSeries none contract_hours spread_series =
      contract_hours.map (fun h => (h, seriesMean spread_series)) ∧
    seriesKeys (engineCurveSeries none contract_hours spread_series) =
      contract_hours ∧
    ∀ p ∈ engineCurveSeries none contract_hours spread_series,
      p.2 = seriesMean spread_series := by
  refine ⟨rfl, ?_, ?_⟩
  · induction contract_hours with
    | nil => rfl
    | cons h t ih => simpa [engineCurveSeries, seriesKeys] using ih
  · intro p hp
    simp only [engineCurveSeries, List.mem_map] at hp
    obtain ⟨h, _, rfl⟩ := hp
    rfl

/-- Closed instance of `curve_fallback_flat_mean`. -/
theorem curve_fallback_flat_mean_witness :
    seriesKeys (engineCurveSeries none [200, 201, 202] spreadFixture) =
      [200, 201, 202] ∧
    (((200 : ℤ), seriesMean spreadFixture) : ℤ × EFloat).2 =
      seriesMean spreadFixture :=
  ⟨(curve_fallback_flat_mean [200, 201, 202] spreadFixture).2.1,
   (curve_fallback_flat_mean [200, 201, 202] spreadFixture).2.2
     (200, seriesMean spreadFixture) (by with_unfolding_all decide)⟩

/-! ### C8 -/

/-- C8: obligation-only invariant.  Constructing a `ContractSpec` with any
non-obligation contract type (directly or through `from_dict`) fails with
the contract-type error while `"obligation"` succeeds; every successfully
constructed spec has `contract_type = obligation`, and on such a spec the
`_payoff` function is the identity, so the option (floored-at-zero) branch
is unreachable through the public contract path. -/
theorem contract_spec_obligation_only :
    (∀ (src snk : String) (s e : ℤ) (mw : ℚ) (cid : Option String)
       (ct : ContractType), ct ≠ ContractType.obligation →
       ContractSpec.make src snk s e mw ct cid =
         .error .contractTypeNotObligation) ∧
    (∀ (src snk : String) (s e : ℤ) (mw : ℚ) (cid : Option String),
       ContractSpec.from_dict src snk s e mw "option" cid =
         .error .contractTypeNotObligation) ∧
    (∀ (src snk : String) (s e : ℤ) (mw : ℚ) (cid : Option String),
       ContractSpec.from_dict src snk s e mw "obligation" cid =
         .ok ⟨src, snk, s, e, mw, .obligation, cid⟩) ∧
    (∀ (src snk : String) (s e : ℤ) (mw : ℚ) (cid : Option String)
       (ct : ContractType) (spec : ContractSpec),
       ContractSpec.make src snk s e mw ct cid = .ok spec →
       spec.contract_type = .obligation) ∧
    (∀ (src snk : String) (s e : ℤ) (mw : ℚ) (cid : Option String)
       (cts : String) (spec : ContractSpec),
       ContractSpec.from_dict src snk s e mw cts cid = .ok spec →
       spec.contract_type = .obligation) ∧
    (∀ (spec : ContractSpec), spec.contract_type = .obligation →
       ∀ x : EFloat, payoff x spec.contract_type = x) := by
  refine ⟨?_, ?_, ?_, ?_, ?_, ?_⟩
  · intro src snk s e mw cid ct hct
    simp [ContractSpec.make, hct]
  · intro src snk s e mw cid
    simp [ContractSpec.from_dict, ContractType.ofString, ok_bind,
      ContractSpec.make]
  · intro src snk s e mw cid
    simp [ContractSpec.from_dict, ContractType.ofString, ok_bind,
      ContractSpec.make]
  · intro src snk s e mw cid ct spec hok
    unfold ContractSpec.make at hok
    split at hok
    · exact absurd hok (by simp)
    · next hct =>
      simp only [Except.ok.injEq] at hok
      subst hok
      simpa using hct
  · intro src snk s e mw cid cts spec hok
    unfold ContractSpec.from_dict at hok
    cases hct : ContractType.ofString cts with
    | error e' => rw [hct, error_bind] at hok; exact absurd hok (by simp)
    | ok ct =>
      rw [hct, ok_bind] at hok
      unfold ContractSpec.make at hok
      split at hok
      · exact absurd hok (by simp)
      · next hct' =>
        simp only [Except.ok.injEq] at hok
        subst hok
        simpa using hct'
  · intro spec hobl x
    simp [payoff, hobl]

/-- Closed instance of `contract_spec_obligation_only`. -/
theorem contract_spec_obligation_only_witness :
    ContractSpec.make "A" "B" 0 3 1 ContractType.option none =
      .error .contractTypeNotObligation ∧
    ContractSpec.from_dict "A" "B" 0 3 1 "option" none =
      .error .contractTypeNotObligation ∧
    ContractSpec.from_dict "A" "B" 0 3 1 "obligation" none =
      .ok ⟨"A", "B", 0, 3, 1, .obligation, none⟩ ∧
    payoff (some (-7)) (ContractSpec.contract_type ⟨"A", "B", 0, 3, 1, .obligation, none⟩) =
      some (-7) :=
  ⟨contract_spec_obligation_only.1 "A" "B" 0 3 1 none ContractType.option (by decide),
   contract_spec_obligation_only.2.1 "A" "B" 0 3 1 none,
   contract_spec_obligation_only.2.2.1 "A" "B" 0 3 1 none,
   contract_spec_obligation_only.2.2.2.2.2 ⟨"A", "B", 0, 3, 1, .obligation, none⟩ rfl (some (-7))⟩

/-! ### C4 -/

theorem takeBlock_length (values : List ℚ) (start blockLen : ℕ)
    (hs : start < values.length) (hb : blockLen ≤ values.length) :
    (takeBlock values start blockLen).length = blockLen := by
  simp only [takeBlock]
  split
  · next h =>
    simp only [List.length_take, List.length_drop]
    omega
  · next h =>
    simp only [List.length_append, List.length_take, List.length_drop]
    omega

theorem drawLoop_length_ge (values : List ℚ) (blockLen nHours : ℕ)
    (hv : 0 < values.length) (hbl : blockLen ≤ values.length) :
    ∀ (fuel st : ℕ) (draws : List ℚ),
      nHours ≤ draws.length + fuel * blockLen →
      nHours ≤ (drawLoop values blockLen nHours fuel st draws).1.length := by
  intro fuel
  induction fuel with
  | zero =>
    intro st draws h
    simpa [drawLoop] using h
  | succ n ih =>
    intro st draws h
    unfold drawLoop
    split
    · next hlt =>
      apply ih
      have hstart : (randrange st values.length).1 < values.length := by
        simpa [randrange] using Nat.mod_lt (rngNext st) hv
      rw [List.length_append,
        takeBlock_length values (randrange st values.length).1 blockLen hstart hbl]
      have : draws.length + (n + 1) * blockLen =
          draws.length + blockLen + n * blockLen := by ring
      omega
    · next hge =>
      simpa using Nat.le_of_not_lt hge

theorem scenLoop_length (values : List ℚ) (blockLen nHours : ℕ) :
    ∀ (k st : ℕ), (scenLoop values blockLen nHours k st).length = k := by
  intro k
  induction k with
  | zero => intro st; rfl
  | succ n ih => intro st; simp [scenLoop, ih]

theorem scenLoop_mem_length (values : List ℚ) (blockLen nHours : ℕ)
    (hv : 0 < values.length) (hb : 1 ≤ blockLen)
    (hbl : blockLen ≤ values.length) :
    ∀ (k st : ℕ) (s : List ℚ),
      s ∈ scenLoop values blockLen nHours k st → s.length = nHours := by
  intro k
  induction k with
  | zero => intro st s hs; simp [scenLoop] at hs
  | succ n ih =>
    intro st s hs
    simp only [scenLoop, List.mem_cons] at hs
    rcases hs with rfl | hs
    · rw [List.length_take]
      have hge := drawLoop_length_ge values blockLen nHours hv hbl nHours
        st [] (by
          have h1 : nHours * 1 ≤ nHours * blockLen :=
            Nat.mul_le_mul_left nHours hb
          simpa using h1)
      omega
    · exact ih _ _ hs

theorem blockLengthHours_bounds (L : ℕ) (settings : FTRSettings)
    (hL : 1 ≤ L) :
    1 ≤ blockLengthHours L settings ∧ blockLengthHours L settings ≤ L ∧
    (1 ≤ settings.block_length_days * 24 →
      settings.block_length_days * 24 ≤ L →
      blockLengthHours L settings = settings.block_length_days * 24) := by
  refine ⟨?_, ?_, ?_⟩ <;> simp only [blockLengthHours] <;> split <;> omega

/-- The success equation of `bootstrap_scenarios`. -/
theorem bootstrap_scenarios_ok (residual : Series) (n_hours : ℕ)
    (settings : FTRSettings) (hn : ¬ n_hours < 1)
    (hne : ¬ residual.isEmpty)
    (hfin : ¬ (residual.filterMap Prod.snd).isEmpty) :
    bootstrap_scenarios residual n_hours settings =
      .ok (scenLoop (residual.filterMap Prod.snd)
        (blockLengthHours (residual.filterMap Prod.snd).length settings)
        n_hours settings.n_scenarios settings.seed) := by
  unfold bootstrap_scenarios
  simp [hn, hne, hfin]

/-- C4: Block-bootstrap shape and wrap-around.  For a residual series with
at least one finite value and `n_hours ≥ 1`, `bootstrap_scenarios` succeeds
with exactly `settings.n_scenarios` scenarios of exactly `n_hours` values
each; the block length is `block_length_days × 24` clamped to
`[1, len(values)]`; and a block starting anywhere in the array (wrapping
circularly when it would overrun) always has exactly `blockLen` values. -/
theorem bootstrap_shape_and_wrap (residual : Series) (n_hours : ℕ)
    (settings : FTRSettings)
    (hfin : residual.filterMap Prod.snd ≠ []) (hn : 1 ≤ n_hours) :
    (∃ scen, bootstrap_scenarios residual n_hours settings = .ok scen ∧
       scen.length = settings.n_scenarios ∧
       ∀ s ∈ scen, s.length = n_hours) ∧
    (1 ≤ blockLengthHours (residual.filterMap Prod.snd).length settings ∧
     blockLengthHours (residual.filterMap Prod.snd).length settings ≤
       (residual.filterMap Prod.snd).length ∧
     (1 ≤ settings.block_length_days * 24 →
       settings.block_length_days * 24 ≤
         (residual.filterMap Prod.snd).length →
       blockLengthHours (residual.filterMap Prod.snd).length settings =
         settings.block_length_days * 24)) ∧
    (∀ (values : List ℚ) (start blockLen : ℕ), start < values.length →
       blockLen ≤ values.length →
       (takeBlock values start blockLen).length = blockLen) := by
  have hv : 0 < (residual.filterMap Prod.snd).length :=
    List.length_pos.mpr hfin
  obtain ⟨hb1, hb2, hb3⟩ :=
    blockLengthHours_bounds (residual.filterMap Prod.snd).length settings hv
  have hne : ¬ residual.isEmpty := by
    intro h
    rw [List.isEmpty_iff] at h
    exact hfin (by simp [h])
  refine ⟨⟨_, bootstrap_scenarios_ok residual n_hours settings (by omega) hne
      (by simpa [List.isEmpty_iff] using hfin), ?_, ?_⟩,
    ⟨hb1, hb2, hb3⟩, fun values start blockLen hs hbl =>
      takeBlock_length values start blockLen hs hbl⟩
  · exact scenLoop_length _ _ _ _ _
  · intro s hs
    exact scenLoop_mem_length _ _ _ hv hb1 hb2 _ _ s hs

/-- Closed instance of `bootstrap_shape_and_wrap`: a residual series of
length 2 with block length `1 × 24` clamped to 2 still yields a scenario
set via circular wrap, with the block length inside `[1, 2]`. -/
theorem bootstrap_shape_and_wrap_witness :
    resultIsOk (bootstrap_scenarios [((0 : ℤ), (some 1 : EFloat)), (1, some 2)]
      5 ⟨"", "UTC", 1, 1, 7, .drop⟩) = true ∧
    1 ≤ blockLengthHours 2 ⟨"", "UTC", 1, 1, 7, .drop⟩ ∧
    blockLengthHours 2 ⟨"", "UTC", 1, 1, 7, .drop⟩ ≤ 2 := by
  obtain ⟨⟨scen, hok, _, _⟩, ⟨h1, h2, _⟩, _⟩ :=
    bootstrap_shape_and_wrap [((0 : ℤ), (some 1 : EFloat)), (1, some 2)] 5
      ⟨"", "UTC", 1, 1, 7, .drop⟩ (by decide) (by decide)
  exact ⟨by rw [hok]; rfl, h1, h2⟩

/-! ### C10 -/

/-- An empty contract-hour index yields an empty engine curve series. -/
theorem engineCurveSeries_nil (curve : Option (List (ℤ × EFloat)))
    (spread_series : Series) :
    engineCurveSeries curve [] spread_series = [] := by
  cases curve <;> rfl

/-- C10: degenerate contract window.  With `start_utc ≥ end_utc` the
contract-hour index `[start_utc, end_utc)` is empty and `price_contract`
never returns a `ValuationResult`; when the spread series builds and the
model is `"hs"` the failure is exactly the scenario builder's rejection of
`n_hours < 1`. -/
theorem degenerate_window_errors (spec : ContractSpec)
    (prices : List PriceRow) (curve : Option (List (ℤ × EFloat)))
    (model : String) (settings : FTRSettings)
    (h : spec.end_utc ≤ spec.start_utc) :
    hourly_index_utc spec.start_utc spec.end_utc = [] ∧
    (∀ r, price_contract spec prices curve model settings ≠ .ok r) ∧
    (∀ spread, compute_spread_series prices spec.source spec.sink
        settings.missing_hour_policy = .ok spread → model = "hs" →
      price_contract spec prices curve model settings =
        .error .nHoursTooSmall) := by
  have hhours : hourly_index_utc spec.start_utc spec.end_utc = [] := by
    unfold hourly_index_utc
    rw [Int.toNat_of_nonpos (by omega)]
    rfl
  have hbody : ∀ spread,
      compute_spread_series prices spec.source spec.sink
        settings.missing_hour_policy = .ok spread →
      model = "hs" →
      price_contract spec prices curve model settings =
        .error .nHoursTooSmall := by
    intro spread hcss hm
    unfold price_contract
    rw [hcss, ok_bind, hhours, hm]
    dsimp only
    rw [engineCurveSeries_nil]
    simp only [ne_eq, not_true_eq_false, if_false]
    rw [show price_hs spread [] spec.contract_type settings =
      .error .nHoursTooSmall from rfl, error_bind]
  refine ⟨hhours, ?_, hbody⟩
  intro r hok
  by_cases hm : model = "hs"
  · cases hcss : compute_spread_series prices spec.source spec.sink
        settings.missing_hour_policy with
    | error e =>
      unfold price_contract at hok
      rw [hcss, error_bind] at hok
      exact absurd hok (by simp)
    | ok spread =>
      rw [hbody spread hcss hm] at hok
      exact absurd hok (by simp)
  · cases hcss : compute_spread_series prices spec.source spec.sink
        settings.missing_hour_policy with
    | error e =>
      unfold price_contract at hok
      rw [hcss, error_bind] at hok
      exact absurd hok (by simp)
    | ok spread =>
      unfold price_contract at hok
      rw [hcss, ok_bind] at hok
      simp only [ne_eq, hm, not_false_eq_true, if_true, throw_eq] at hok
      exact absurd hok (by simp)

/-- Closed instance of `degenerate_window_errors`. -/
theorem degenerate_window_errors_witness :
    hourly_index_utc 203 200 = [] ∧
    price_contract ⟨"A", "B", 203, 200, 2, .obligation, none⟩
        [⟨100, "A", some 0⟩, ⟨100, "B", some 0⟩] none "hs"
        ⟨"", "UTC", 1, 1, 0, .drop⟩ = .error .nHoursTooSmall :=
  ⟨(degenerate_window_errors ⟨"A", "B", 203, 200, 2, .obligation, none⟩
      [⟨100, "A", some 0⟩, ⟨100, "B", some 0⟩] none "hs"
      ⟨"", "UTC", 1, 1, 0, .drop⟩ (by decide)).1,
   (degenerate_window_errors ⟨"A", "B", 203, 200, 2, .obligation, none⟩
      [⟨100, "A", some 0⟩, ⟨100, "B", some 0⟩] none "hs"
      ⟨"", "UTC", 1, 1, 0, .drop⟩ (by decide)).2.2
    [((100 : ℤ), (some 0 : EFloat))] (by with_unfolding_all decide) rfl⟩

/-! ### C2 -/

/-- C2 counterexample: with an unsupported model name *and* a price table
missing the requested sink node, `price_contract` fails with the
missing-node `DataError`, not the `ModelError` — the model check runs after
the spread series is built. -/
theorem model_validation_order_counterexample :
    price_contract ⟨"A", "Z", 200, 203, 2, .obligation, none⟩ pricesFixture
        (some curveFixture) "bogus" settingsFixture =
      .error (.noPricesForNode "Z") ∧
    FTRError.noPricesForNode "Z" ≠ .unsupportedModel "bogus" := by
  constructor
  · decide
  · decide

/-- C2 (amended): model validation runs after the spread series and the
curve series are built; for every call whose spread series builds
successfully, a model name other than `"hs"` fails with the `ModelError`
(`Unsupported model`). -/
theorem model_validated_after_spread (spec : ContractSpec)
    (prices : List PriceRow) (curve : Option (List (ℤ × EFloat)))
    (model : String) (settings : FTRSettings) (spread : Series)
    (hspread : compute_spread_series prices spec.source spec.sink
      settings.missing_hour_policy = .ok spread)
    (hm : model ≠ "hs") :
    price_contract spec prices curve model settings =
      .error (.unsupportedModel model) := by
  unfold price_contract
  rw [hspread, ok_bind]
  dsimp only
  simp [hm, throw_eq]

/-- Closed instance of `model_validated_after_spread`. -/
theorem model_validated_after_spread_witness :
    price_contract ⟨"A", "B", 200, 203, 2, .obligation, none⟩ pricesFixture
        (some curveFixture) "bogus" settingsFixture =
      .error (.unsupportedModel "bogus") :=
  model_validated_after_spread ⟨"A", "B", 200, 203, 2, .obligation, none⟩
    pricesFixture (some curveFixture) "bogus" settingsFixture
    [(100, some 0), (101, some 0), (102, some 0), (103, some 0)]
    (by with_unfolding_all decide) (by decide)

/-! ### C6 -/

theorem lookupTs_isSome_iff (s : Series) (t : ℤ) :
    (lookupTs s t).isSome = true ↔ t ∈ seriesKeys s := by
  induction s with
  | nil => simp [lookupTs, seriesKeys]
  | cons p rest ih =>
    by_cases h : p.1 = t
    · subst h
      simp [lookupTs, seriesKeys,
        List.find?_cons_of_pos _ (decide_eq_true rfl)]
    · have hb : (decide (p.1 = t) : Bool) = false := by simpa using h
      rw [show lookupTs (p :: rest) t = lookupTs rest t from by
        simp only [lookupTs, List.find?, hb]]
      rw [ih]
      simp [seriesKeys, Ne.symm h]

/-- C6: inner-join spread alignment.  When both nodes' series prepare
successfully, `compute_spread_series` returns exactly the inner join of the
two prepared (duplicate-averaged, sorted, policy-applied) series: a
timestamp is in the spread index iff it is in both prepared indices (one
present in only one never appears), and each spread entry is the sink value
minus the source value at that timestamp. -/
theorem spread_is_inner_join (prices : List PriceRow) (source sink : String)
    (policy : MissingHourPolicy) (s1 s2 : Series)
    (h1 : prepareNodePrices prices source policy = .ok s1)
    (h2 : prepareNodePrices prices sink policy = .ok s2) :
    compute_spread_series prices source sink policy =
      .ok (innerJoinSpread s1 s2) ∧
    (∀ t : ℤ, t ∈ seriesKeys (innerJoinSpread s1 s2) ↔
      t ∈ seriesKeys s1 ∧ t ∈ seriesKeys s2) ∧
    (∀ t (v : EFloat), (t, v) ∈ innerJoinSpread s1 s2 →
      ∃ a b, (t, a) ∈ s1 ∧ lookupTs s2 t = some b ∧ v = esub b a) := by
  refine ⟨?_, ?_, ?_⟩
  · unfold compute_spread_series
    rw [h1, ok_bind, h2, ok_bind]
    rfl
  · intro t
    simp only [seriesKeys, innerJoinSpread, List.mem_map, List.mem_filterMap,
      Option.map_eq_some', List.mem_map] at *
    constructor
    · rintro ⟨q, ⟨p, hp, v, hv, rfl⟩, rfl⟩
      refine ⟨⟨p, hp, rfl⟩, ?_⟩
      have : (lookupTs s2 p.1).isSome = true := by rw [hv]; rfl
      have h3 := (lookupTs_isSome_iff s2 p.1).mp this
      simpa [seriesKeys, List.mem_map] using h3
    · rintro ⟨⟨p, hp, rfl⟩, hk2⟩
      have h4 : (lookupTs s2 p.1).isSome = true := by
        apply (lookupTs_isSome_iff s2 p.1).mpr
        simpa [seriesKeys, List.mem_map] using hk2
      obtain ⟨v, hv⟩ := Option.isSome_iff_exists.mp h4
      exact ⟨(p.1, esub v p.2), ⟨p, hp, v, hv, rfl⟩, rfl⟩
  · intro t v hmem
    simp only [innerJoinSpread, List.mem_filterMap, Option.map_eq_some']
      at hmem
    obtain ⟨p, hp, w, hw, heq⟩ := hmem
    have ht : p.1 = t := congrArg Prod.fst heq
    have hv : v = esub w p.2 := (congrArg Prod.snd heq).symm
    subst ht
    exact ⟨p.2, w, by simpa using hp, hw, hv⟩

/-- Closed instance of `spread_is_inner_join`: nodes overlapping only at
hour 101 — 101 is in the spread index iff in both node indices, and 100
(present for one node only) likewise. -/
theorem spread_is_inner_join_witness :
    compute_spread_series
        [⟨100, "A", some 1⟩, ⟨101, "A", some 2⟩, ⟨101, "B", some 5⟩,
         ⟨102, "B", some 6⟩] "A" "B" .drop =
      .ok (innerJoinSpread [(100, some 1), (101, some 2)]
        [(101, some 5), (102, some 6)]) ∧
    ((101 : ℤ) ∈ seriesKeys (innerJoinSpread [(100, some 1), (101, some 2)]
        [(101, some 5), (102, some 6)]) ↔
      (101 : ℤ) ∈ seriesKeys [((100 : ℤ), (some 1 : EFloat)), (101, some 2)] ∧
      (101 : ℤ) ∈ seriesKeys [((101 : ℤ), (some 5 : EFloat)), (102, some 6)]) ∧
    ((100 : ℤ) ∈ seriesKeys (innerJoinSpread [(100, some 1), (101, some 2)]
        [(101, some 5), (102, some 6)]) ↔
      (100 : ℤ) ∈ seriesKeys [((100 : ℤ), (some 1 : EFloat)), (101, some 2)] ∧
      (100 : ℤ) ∈ seriesKeys [((101 : ℤ), (some 5 : EFloat)), (102, some 6)]) :=
  ⟨((spread_is_inner_join
      [⟨100, "A", some 1⟩, ⟨101, "A", some 2⟩, ⟨101, "B", some 5⟩,
       ⟨102, "B", some 6⟩] "A" "B" .drop
      [(100, some 1), (101, some 2)] [(101, some 5), (102, some 6)]
      (by with_unfolding_all decide) (by with_unfolding_all decide))).1,
   ((spread_is_inner_join
      [⟨100, "A", some 1⟩, ⟨101, "A", some 2⟩, ⟨101, "B", some 5⟩,
       ⟨102, "B", some 6⟩] "A" "B" .drop
      [(100, some 1), (101, some 2)] [(101, some 5), (102, some 6)]
      (by with_unfolding_all decide) (by with_unfolding_all decide))).2.1 101,
   ((spread_is_inner_join
      [⟨100, "A", some 1⟩, ⟨101, "A", some 2⟩, ⟨101, "B", some 5⟩,
       ⟨102, "B", some 6⟩] "A" "B" .drop
      [(100, some 1), (101, some 2)] [(101, some 5), (102, some 6)]
      (by with_unfolding_all decide) (by with_unfolding_all decide))).2.1 100⟩

/-! ### C3 -/

theorem ffillList_length : ∀ (xs : List EFloat) (carry : EFloat),
    (ffillList xs carry).length = xs.length
  | [], _ => rfl
  | some v :: t, _ => by
    simp [ffillList, ffillList_length t (some v)]
  | none :: t, carry => by
    simp [ffillList, ffillList_length t carry]

theorem bfillList_length (xs : List EFloat) :
    (bfillList xs).length = xs.length := by
  simp [bfillList, ffillList_length]

theorem prepare_curve_length (curve_df : List (ℤ × EFloat))
    (contract_hours : List ℤ) :
    (prepare_curve curve_df contract_hours).length = contract_hours.length := by
  unfold prepare_curve
  dsimp only
  split
  · rw [List.length_zip, bfillList_length, ffillList_length,
      List.length_map, List.length_map]
    omega
  · rw [List.length_map]

theorem engineCurveSeries_length (curve : Option (List (ℤ × EFloat)))
    (contract_hours : List ℤ) (spread_series : Series) :
    (engineCurveSeries curve contract_hours spread_series).length =
      contract_hours.length := by
  cases curve with
  | none => simp [engineCurveSeries]
  | some c => exact prepare_curve_length c contract_hours

theorem hourly_index_utc_length (s e : ℤ) :
    (hourly_index_utc s e).length = (e - s).toNat := by
  unfold hourly_index_utc
  rw [List.length_map, List.length_range]

theorem emean_all_none (xs : List EFloat) (h : ∀ x ∈ xs, x = none) :
    emean xs = none := by
  unfold emean
  rw [if_pos]
  rw [List.isEmpty_iff, List.filterMap_eq_nil_iff]
  exact h

theorem evarPop_all_none (xs : List EFloat) (h : ∀ x ∈ xs, x = none) :
    evarPop xs = none := by
  unfold evarPop
  rw [if_pos]
  rw [List.isEmpty_iff, List.filterMap_eq_nil_iff]
  exact h

theorem payoff_foldl_none (ct : ContractType) :
    ∀ l : List (EFloat × ℚ),
      l.foldl (fun acc p => eadd acc (payoff (eadd p.1 (some p.2)) ct))
        none = none
  | [] => rfl
  | p :: t => by
    rw [List.foldl_cons,
      show eadd none (payoff (eadd p.1 (some p.2)) ct) = none from rfl]
    exact payoff_foldl_none ct t

theorem scenarioPayoff_all_none (base : List EFloat) (s : List ℚ)
    (ct : ContractType) (hb : ∀ v ∈ base, v = none) (hbne : base ≠ [])
    (hsne : s ≠ []) : scenarioPayoff base s ct = none := by
  cases base with
  | nil => exact absurd rfl hbne
  | cons b bt =>
    cases s with
    | nil => exact absurd rfl hsne
    | cons r rt =>
      have hbnone : b = none := hb b (List.mem_cons_self _ _)
      subst hbnone
      simp only [scenarioPayoff, List.zip_cons_cons, List.foldl_cons]
      rw [show eadd (some 0) (payoff (eadd none (some r)) ct) = none from by
        cases ct <;> rfl]
      exact payoff_foldl_none ct (bt.zip rt)

theorem residuals_filterMap_nil (spread : Series)
    (h : spread.filterMap Prod.snd = []) :
    ((spread.map fun p => (p.1, esub p.2 (seriesMean spread))).filterMap
      Prod.snd) = [] := by
  rw [List.filterMap_eq_nil_iff] at h ⊢
  intro p hp
  obtain ⟨q, hq, rfl⟩ := List.mem_map.mp hp
  have hq2 := h q hq
  show esub q.2 (seriesMean spread) = none
  rw [show q.2 = none from hq2]
  rfl

theorem seriesMean_isSome (spread : Series)
    (h : spread.filterMap Prod.snd ≠ []) :
    ∃ m : ℚ, seriesMean spread = some m := by
  unfold seriesMean emean
  rw [if_neg]
  · exact ⟨_, rfl⟩
  · rw [List.isEmpty_iff, List.filterMap_map]
    simpa using h

theorem residuals_filterMap_ne_nil (spread : Series)
    (h : spread.filterMap Prod.snd ≠ []) :
    ((spread.map fun p => (p.1, esub p.2 (seriesMean spread))).filterMap
      Prod.snd) ≠ [] := by
  obtain ⟨m, hm⟩ := seriesMean_isSome spread h
  have hex : ¬ ∀ p ∈ spread, Prod.snd p = none := by
    intro hall
    exact h (List.filterMap_eq_nil_iff.mpr hall)
  push_neg at hex
  obtain ⟨p, hp, hps⟩ := hex
  obtain ⟨a, ha⟩ := Option.ne_none_iff_exists'.mp hps
  intro hcon
  rw [List.filterMap_eq_nil_iff] at hcon
  have hc := hcon _ (List.mem_map_of_mem _ hp)
  simp only at hc
  rw [ha, hm] at hc
  simp [esub] at hc

set_option maxHeartbeats 1000000 in
/-- The success equation of historical-simulation pricing: when the spread
series builds and the bootstrap succeeds, `price_contract` returns exactly
the assembled `ValuationResult`. -/
theorem price_contract_hs_ok (spec : ContractSpec) (prices : List PriceRow)
    (curve : Option (List (ℤ × EFloat))) (settings : FTRSettings)
    (spread : Series) (scen : List (List ℚ))
    (hspread : compute_spread_series prices spec.source spec.sink
      settings.missing_hour_policy = .ok spread)
    (hboot : bootstrap_scenarios
      (spread.map fun p => (p.1, esub p.2 (seriesMean spread)))
      (engineCurveSeries curve
        (hourly_index_utc spec.start_utc spec.end_utc) spread).length
      settings = .ok scen) :
    price_contract spec prices curve "hs" settings = .ok {
      contract_id := spec.contract_id
      price := emean ((scen.map fun s => scenarioPayoff
          ((engineCurveSeries curve
            (hourly_index_utc spec.start_utc spec.end_utc) spread).map
            Prod.snd) s spec.contract_type).map
        fun p => emul p (some spec.mw))
      currency := "EUR"
      mean_payoff := emean ((scen.map fun s => scenarioPayoff
          ((engineCurveSeries curve
            (hourly_index_utc spec.start_utc spec.end_utc) spread).map
            Prod.snd) s spec.contract_type).map
        fun p => emul p (some spec.mw))
      stdev_sq_payoff := evarPop ((scen.map fun s => scenarioPayoff
          ((engineCurveSeries curve
            (hourly_index_utc spec.start_utc spec.end_utc) spread).map
            Prod.snd) s spec.contract_type).map
        fun p => emul p (some spec.mw))
      p5_payoff := quantileLinear (5 / 100) ((scen.map fun s => scenarioPayoff
          ((engineCurveSeries curve
            (hourly_index_utc spec.start_utc spec.end_utc) spread).map
            Prod.snd) s spec.contract_type).map
        fun p => emul p (some spec.mw))
      p95_payoff := quantileLinear (95 / 100) ((scen.map fun s => scenarioPayoff
          ((engineCurveSeries curve
            (hourly_index_utc spec.start_utc spec.end_utc) spread).map
            Prod.snd) s spec.contract_type).map
        fun p => emul p (some spec.mw))
      n_scenarios := ((scen.map fun s => scenarioPayoff
          ((engineCurveSeries curve
            (hourly_index_utc spec.start_utc spec.end_utc) spread).map
            Prod.snd) s spec.contract_type).map
        fun p => emul p (some spec.mw)).length
      model := "hs"
      data_version := compute_data_version none settings codeVersion
        (some (priceDF prices :: curveDFList curve))
      hours := (hourly_index_utc spec.start_utc spec.end_utc).length
      spread_mean := seriesMean spread
      curve_mean := seriesMean (engineCurveSeries curve
        (hourly_index_utc spec.start_utc spec.end_utc) spread)
    } := by
  unfold price_contract
  rw [hspread, ok_bind]
  dsimp only
  simp only [ne_eq, not_true_eq_false, if_false]
  unfold price_hs
  dsimp only
  rw [hboot, ok_bind]
  rfl

/-- C3 counterexample: a curve table with the required columns but zero
usable rows leaves every contract hour missing after forward-fill and
backward-fill, yet `price_contract` returns a result — with NaN price —
instead of failing with a `DataError`. -/
theorem curve_all_missing_counterexample :
    resultIsOk (price_contract ⟨"A", "B", 200, 203, 2, .obligation, none⟩
      pricesFixture (some []) "hs" settingsFixture) = true ∧
    resultPrice (price_contract ⟨"A", "B", 200, 203, 2, .obligation, none⟩
      pricesFixture (some []) "hs" settingsFixture) = some none := by
  constructor
  · with_unfolding_all decide
  · with_unfolding_all decide

/-- C3 (amended): an empty or all-missing spread series after alignment
does fail with a `DataError` (the scenario builder rejects it), but an
all-missing curve series does not: the engine returns a `ValuationResult`
whose price, mean and stdev are NaN. -/
theorem empty_spread_errors_empty_curve_does_not (spec : ContractSpec)
    (prices : List PriceRow) (curve : Option (List (ℤ × EFloat)))
    (settings : FTRSettings) (spread : Series)
    (hspread : compute_spread_series prices spec.source spec.sink
      settings.missing_hour_policy = .ok spread)
    (hw : spec.start_utc < spec.end_utc) :
    (spread.filterMap Prod.snd = [] →
      price_contract spec prices curve "hs" settings = .error
        (if spread.isEmpty then FTRError.emptyResidual
         else FTRError.noFiniteResidual)) ∧
    (spread.filterMap Prod.snd ≠ [] →
      (∀ v ∈ (engineCurveSeries curve
          (hourly_index_utc spec.start_utc spec.end_utc) spread).map Prod.snd,
        v = none) →
      ∃ r, price_contract spec prices curve "hs" settings = .ok r ∧
        r.price = none ∧ r.mean_payoff = none ∧
        r.stdev_sq_payoff = none) := by
  have hlen := engineCurveSeries_length curve
    (hourly_index_utc spec.start_utc spec.end_utc) spread
  have hhl := hourly_index_utc_length spec.start_utc spec.end_utc
  have hpos : 1 ≤ (engineCurveSeries curve
      (hourly_index_utc spec.start_utc spec.end_utc) spread).length := by
    rw [hlen, hhl]
    omega
  constructor
  · intro hnan
    unfold price_contract
    rw [hspread, ok_bind]
    dsimp only
    simp only [ne_eq, not_true_eq_false, if_false]
    unfold price_hs
    dsimp only
    have hboot : bootstrap_scenarios
        (spread.map fun p => (p.1, esub p.2 (seriesMean spread)))
        (engineCurveSeries curve
          (hourly_index_utc spec.start_utc spec.end_utc) spread).length
        settings = .error
          (if spread.isEmpty then FTRError.emptyResidual
           else FTRError.noFiniteResidual) := by
      cases he : spread.isEmpty with
      | true =>
        rw [List.isEmpty_iff] at he
        subst he
        simp [bootstrap_scenarios, show ¬ (engineCurveSeries curve
          (hourly_index_utc spec.start_utc spec.end_utc)
          ([] : Series)).length < 1 from by omega]
      | false =>
        have hne : spread ≠ [] := by
          intro hh
          rw [hh] at he
          simp at he
        simp [bootstrap_scenarios, show ¬ (engineCurveSeries curve
            (hourly_index_utc spec.start_utc spec.end_utc)
            spread).length < 1 from by omega,
          List.isEmpty_iff, List.map_eq_nil_iff, hne,
          residuals_filterMap_nil spread hnan, he]
    rw [hboot]
    exact error_bind _ _
  · intro hfin hcnone
    have hone := residuals_filterMap_ne_nil spread hfin
    have hsprne : spread ≠ [] := by
      intro hh
      exact hfin (by simp [hh])
    have hboot := bootstrap_scenarios_ok
      (spread.map fun p => (p.1, esub p.2 (seriesMean spread)))
      (engineCurveSeries curve
        (hourly_index_utc spec.start_utc spec.end_utc) spread).length
      settings (by omega)
      (by simp [List.isEmpty_iff, List.map_eq_nil_iff, hsprne])
      (by simpa [List.isEmpty_iff] using hone)
    refine ⟨_, price_contract_hs_ok spec prices curve settings spread _
      hspread hboot, ?_, ?_, ?_⟩
    all_goals {
      have hv : 0 < ((spread.map fun p =>
          (p.1, esub p.2 (seriesMean spread))).filterMap Prod.snd).length :=
        List.length_pos.mpr hone
      have hv1 : 1 ≤ ((spread.map fun p =>
          (p.1, esub p.2 (seriesMean spread))).filterMap Prod.snd).length :=
        hv
      obtain ⟨hb1, hb2, _⟩ := blockLengthHours_bounds
        ((spread.map fun p =>
          (p.1, esub p.2 (seriesMean spread))).filterMap Prod.snd).length
        settings hv1
      have hall : ∀ x ∈ ((scenLoop
          ((spread.map fun p =>
            (p.1, esub p.2 (seriesMean spread))).filterMap Prod.snd)
          (blockLengthHours ((spread.map fun p =>
            (p.1, esub p.2 (seriesMean spread))).filterMap Prod.snd).length
            settings)
          (engineCurveSeries curve
            (hourly_index_utc spec.start_utc spec.end_utc) spread).length
          settings.n_scenarios settings.seed).map fun s => scenarioPayoff
            ((engineCurveSeries curve
              (hourly_index_utc spec.start_utc spec.end_utc) spread).map
              Prod.snd) s spec.contract_type).map
          (fun p => emul p (some spec.mw)), x = none := by
        intro x hx
        obtain ⟨y, hy, rfl⟩ := List.mem_map.mp hx
        obtain ⟨s, hsmem, rfl⟩ := List.mem_map.mp hy
        have hslen := scenLoop_mem_length _ _ _ hv hb1 hb2 _ _ s hsmem
        have hsp : scenarioPayoff ((engineCurveSeries curve
            (hourly_index_utc spec.start_utc spec.end_utc) spread).map
            Prod.snd) s spec.contract_type = none := by
          apply scenarioPayoff_all_none _ _ _ hcnone
          · intro hb
            rw [← List.length_eq_zero] at hb
            rw [List.length_map] at hb
            omega
          · intro hs0
            rw [hs0] at hslen
            simp at hslen
            omega
        rw [hsp]
        rfl
      first
      | exact emean_all_none _ hall
      | exact evarPop_all_none _ hall
    }

/-- Closed instance of `empty_spread_errors_empty_curve_does_not`, both
branches: disjoint node timestamps give an empty spread and a `DataError`;
an empty curve table on a good spread gives a NaN-priced result. -/
theorem empty_spread_empty_curve_witness :
    price_contract ⟨"A", "B", 200, 203, 2, .obligation, none⟩
        [⟨100, "A", some 0⟩, ⟨300, "B", some 0⟩] none "hs" settingsFixture =
      .error FTRError.emptyResidual ∧
    resultPrice (price_contract ⟨"A", "B", 200, 203, 2, .obligation, none⟩
      pricesFixture (some []) "hs" settingsFixture) = some none := by
  constructor
  · have h := (empty_spread_errors_empty_curve_does_not
      ⟨"A", "B", 200, 203, 2, .obligation, none⟩
      [⟨100, "A", some 0⟩, ⟨300, "B", some 0⟩] none settingsFixture []
      (by with_unfolding_all decide) (by decide)).1 (by decide)
    simpa using h
  · obtain ⟨r, hok, hp, _, _⟩ := (empty_spread_errors_empty_curve_does_not
      ⟨"A", "B", 200, 203, 2, .obligation, none⟩ pricesFixture (some [])
      settingsFixture spreadFixture
      (by with_unfolding_all decide) (by decide)).2
      (by decide) (by with_unfolding_all decide)
    simp [resultPrice, hok, hp]

/-! ### C5 -/

/-- C5: end-to-end reference value.  For the 3-hour obligation contract
over hours 200–202 with the flat −5 curve, the identically-zero spread
history (residual ≡ 0) and one scenario, `price_contract` returns
`price = −15 × mw` with zero payoff variance (so zero stdev), for every
capacity `mw`. -/
theorem end_to_end_reference_value (mw : ℚ) :
    ∃ r, price_contract ⟨"A", "B", 200, 203, mw, .obligation, none⟩
        pricesFixture (some curveFixture) "hs" settingsFixture = .ok r ∧
      r.price = some (-15 * mw) ∧ r.mean_payoff = some (-15 * mw) ∧
      r.stdev_sq_payoff = some 0 ∧ r.hours = 3 ∧ r.n_scenarios = 1 := by
  have hspread : compute_spread_series pricesFixture "A" "B"
      MissingHourPolicy.drop = .ok spreadFixture := by
    with_unfolding_all decide
  have hboot : bootstrap_scenarios
      (spreadFixture.map fun p => (p.1, esub p.2 (seriesMean spreadFixture)))
      (engineCurveSeries (some curveFixture) (hourly_index_utc 200 203)
        spreadFixture).length settingsFixture = .ok [[0, 0, 0]] := by
    with_unfolding_all decide
  have hbase : (engineCurveSeries (some curveFixture)
      (hourly_index_utc 200 203) spreadFixture).map Prod.snd =
      [some (-5), some (-5), some (-5)] := by
    with_unfolding_all decide
  have hsp : scenarioPayoff [some (-5), some (-5), some (-5)] [0, 0, 0]
      ContractType.obligation = some (-15) := by
    with_unfolding_all decide
  refine ⟨_, price_contract_hs_ok ⟨"A", "B", 200, 203, mw, .obligation, none⟩
    pricesFixture (some curveFixture) settingsFixture spreadFixture
    [[0, 0, 0]] hspread hboot, ?_, ?_, ?_, ?_, ?_⟩
  · show emean (([[(0 : ℚ), 0, 0]].map fun s => scenarioPayoff
        ((engineCurveSeries (some curveFixture) (hourly_index_utc 200 203)
          spreadFixture).map Prod.snd) s ContractType.obligation).map
      fun p => emul p (some mw)) = some (-15 * mw)
    rw [hbase]
    simp only [List.map_cons, List.map_nil, hsp]
    simp [emean, emul]
  · show emean (([[(0 : ℚ), 0, 0]].map fun s => scenarioPayoff
        ((engineCurveSeries (some curveFixture) (hourly_index_utc 200 203)
          spreadFixture).map Prod.snd) s ContractType.obligation).map
      fun p => emul p (some mw)) = some (-15 * mw)
    rw [hbase]
    simp only [List.map_cons, List.map_nil, hsp]
    simp [emean, emul]
  · show evarPop (([[(0 : ℚ), 0, 0]].map fun s => scenarioPayoff
        ((engineCurveSeries (some curveFixture) (hourly_index_utc 200 203)
          spreadFixture).map Prod.snd) s ContractType.obligation).map
      fun p => emul p (some mw)) = some 0
    rw [hbase]
    simp only [List.map_cons, List.map_nil, hsp]
    simp [evarPop, emul]
  · show (hourly_index_utc 200 203).length = 3
    decide
  · show (([[(0 : ℚ), 0, 0]].map fun s => scenarioPayoff
        ((engineCurveSeries (some curveFixture) (hourly_index_utc 200 203)
          spreadFixture).map Prod.snd) s ContractType.obligation).map
      fun p => emul p (some mw)).length = 1
    simp

/-! ### C9 -/

theorem encodeNatList_cons (a : ℕ) (t : List ℕ) :
    encodeNatList (a :: t) = Nat.pair a (encodeNatList t) + 1 := rfl

theorem encodeNatList_injective : Function.Injective encodeNatList := by
  intro l1
  induction l1 with
  | nil =>
    intro l2 h
    cases l2 with
    | nil => rfl
    | cons b u =>
      rw [encodeNatList_cons] at h
      simp [encodeNatList] at h
  | cons a t ih =>
    intro l2 h
    cases l2 with
    | nil =>
      rw [encodeNatList_cons] at h
      simp [encodeNatList] at h
    | cons b u =>
      rw [encodeNatList_cons, encodeNatList_cons] at h
      have h1 : Nat.pair a (encodeNatList t) =
          Nat.pair b (encodeNatList u) := by omega
      have h2 := Nat.pair_eq_pair.mp h1
      rw [h2.1, ih h2.2]

theorem encodeInt_injective : Function.Injective encodeInt := by
  intro z w h
  unfold encodeInt at h
  split at h <;> split at h <;> omega

theorem char_toNat_injective : Function.Injective Char.toNat :=
  fun _ _ h => Char.ext (UInt32.ext h)

theorem strBytes_injective : Function.Injective strBytes := by
  intro s1 s2 h
  exact String.ext (List.map_injective_iff.mpr char_toNat_injective h)

theorem strEnc_injective : Function.Injective strEnc :=
  fun _ _ h => strBytes_injective (encodeNatList_injective h)

theorem polEnc_injective : Function.Injective polEnc := by
  intro a b h
  cases a <;> cases b <;> simp [polEnc] at h ⊢

theorem settingsJsonBytes_injective :
    Function.Injective settingsJsonBytes := by
  intro s1 s2 h
  cases s1
  cases s2
  simp only [settingsJsonBytes, List.cons.injEq, and_true] at h
  have h1 := Nat.pair_eq_pair.mp h
  have h2 := Nat.pair_eq_pair.mp h1.2
  have h3 := Nat.pair_eq_pair.mp h2.2
  have h4 := Nat.pair_eq_pair.mp h3.2
  have h5 := Nat.pair_eq_pair.mp h4.2
  simp only [FTRSettings.mk.injEq]
  exact ⟨strEnc_injective h1.1, strEnc_injective h2.1, h3.1, h4.1, h5.1,
    polEnc_injective h5.2⟩

theorem hash_pandas_object_injective :
    Function.Injective hash_pandas_object := by
  intro d1 d2 h
  unfold hash_pandas_object at h
  refine List.map_injective_iff.mpr ?_ h
  intro r1 r2 hr
  have hr1 : 256 + encodeNatList (r1.map encodeInt) =
      256 + encodeNatList (r2.map encodeInt) := hr
  have hr2 : encodeNatList (r1.map encodeInt) =
      encodeNatList (r2.map encodeInt) := by omega
  exact List.map_injective_iff.mpr encodeInt_injective
    (encodeNatList_injective hr2)

theorem hash_dataframe_injective : Function.Injective hash_dataframe := by
  intro d1 d2 h
  unfold hash_dataframe at h
  cases d1 with
  | nil =>
    cases d2 with
    | nil => rfl
    | cons r t =>
      exfalso
      simp only [List.isEmpty_nil, List.isEmpty_cons, if_true, if_false] at h
      have h2 := encodeNatList_injective h
      rw [show strBytes "empty" = [101, 109, 112, 116, 121] from rfl] at h2
      simp only [hash_pandas_object, List.map_cons, List.cons.injEq] at h2
      omega
  | cons r t =>
    cases d2 with
    | nil =>
      exfalso
      simp only [List.isEmpty_nil, List.isEmpty_cons, if_true, if_false] at h
      have h2 := encodeNatList_injective h
      rw [show strBytes "empty" = [101, 109, 112, 116, 121] from rfl] at h2
      simp only [hash_pandas_object, List.map_cons, List.cons.injEq] at h2
      omega
    | cons r2 t2 =>
      simp only [List.isEmpty_cons, if_false] at h
      exact hash_pandas_object_injective (encodeNatList_injective h)

theorem dfChunks_eq_map (dfs : List DataFrame) :
    dfs.flatMap (fun df => hexChunk (hash_dataframe df)) =
      dfs.map hash_dataframe := by
  induction dfs with
  | nil => rfl
  | cons d t ih =>
    simp only [hexChunk] at ih ⊢
    simp [ih]

/-- C9: `compute_data_version` is a pure function of its inputs — identical
inputs give identical digests — and, with the cryptographic hash modelled as
an injective (ideal) digest, it separates distinct inputs: distinct
dataframe lists, distinct code versions and distinct settings all yield
distinct digests; two tables with identical rows in different row order
hash differently (row-order sensitivity); and in the file channel, changing
one file's contents, or changing one file's path, changes the digest. -/
theorem data_version_pure_and_sensitive :
    (∀ (fp : Option (List (String × List ℕ))) (s : FTRSettings) (cv : String)
       (dfs : Option (List DataFrame)) (fp' : Option (List (String × List ℕ)))
       (s' : FTRSettings) (cv' : String) (dfs' : Option (List DataFrame)),
       fp = fp' → s = s' → cv = cv' → dfs = dfs' →
       compute_data_version fp s cv dfs =
         compute_data_version fp' s' cv' dfs') ∧
    (∀ (fp : Option (List (String × List ℕ))) (s : FTRSettings) (cv : String)
       (dfs1 dfs2 : List DataFrame), dfs1 ≠ dfs2 →
       compute_data_version fp s cv (some dfs1) ≠
         compute_data_version fp s cv (some dfs2)) ∧
    (∀ (fp : Option (List (String × List ℕ))) (s : FTRSettings)
       (dfs : Option (List DataFrame)) (cv1 cv2 : String), cv1 ≠ cv2 →
       compute_data_version fp s cv1 dfs ≠
         compute_data_version fp s cv2 dfs) ∧
    (∀ (fp : Option (List (String × List ℕ))) (cv : String)
       (dfs : Option (List DataFrame)) (s1 s2 : FTRSettings), s1 ≠ s2 →
       compute_data_version fp s1 cv dfs ≠
         compute_data_version fp s2 cv dfs) ∧
    (∀ (fp : Option (List (String × List ℕ))) (s : FTRSettings) (cv : String)
       (r1 r2 : List ℤ) (t : List (List ℤ)) (ds : List DataFrame), r1 ≠ r2 →
       compute_data_version fp s cv (some ((r1 :: r2 :: t) :: ds)) ≠
         compute_data_version fp s cv (some ((r2 :: r1 :: t) :: ds))) ∧
    (∀ (s : FTRSettings) (cv : String) (dfs : Option (List DataFrame))
       (pre post : List (String × List ℕ)) (p : String) (c1 c2 : List ℕ),
       c1 ≠ c2 →
       compute_data_version (some (pre ++ (p, c1) :: post)) s cv dfs ≠
         compute_data_version (some (pre ++ (p, c2) :: post)) s cv dfs) ∧
    (∀ (s : FTRSettings) (cv : String) (dfs : Option (List DataFrame))
       (pre post : List (String × List ℕ)) (c : List ℕ) (p1 p2 : String),
       p1 ≠ p2 →
       compute_data_version (some (pre ++ (p1, c) :: post)) s cv dfs ≠
         compute_data_version (some (pre ++ (p2, c) :: post)) s cv dfs) := by
  have hdfs : ∀ (fp : Option (List (String × List ℕ))) (s : FTRSettings)
      (cv : String) (dfs1 dfs2 : List DataFrame), dfs1 ≠ dfs2 →
      compute_data_version fp s cv (some dfs1) ≠
        compute_data_version fp s cv (some dfs2) := by
    intro fp s cv dfs1 dfs2 hne h
    unfold compute_data_version at h
    dsimp only at h
    have h2 := encodeNatList_injective h
    simp only [List.append_assoc] at h2
    have h5 := List.append_cancel_left
      (List.append_cancel_left (List.append_cancel_left h2))
    rw [dfChunks_eq_map, dfChunks_eq_map] at h5
    exact hne (List.map_injective_iff.mpr hash_dataframe_injective h5)
  refine ⟨?_, hdfs, ?_, ?_, ?_, ?_, ?_⟩
  · intro fp s cv dfs fp' s' cv' dfs' h1 h2 h3 h4
    rw [h1, h2, h3, h4]
  · intro fp s dfs cv1 cv2 hne h
    unfold compute_data_version at h
    dsimp only at h
    have h2 := encodeNatList_injective h
    simp only [List.append_assoc] at h2
    have hlen : (strBytes cv1).length = (strBytes cv2).length := by
      have := congrArg List.length h2
      simp only [List.length_append] at this ⊢
      omega
    exact hne (strBytes_injective (List.append_inj_left h2 hlen))
  · intro fp cv dfs s1 s2 hne h
    unfold compute_data_version at h
    dsimp only at h
    have h2 := encodeNatList_injective h
    simp only [List.append_assoc] at h2
    have h3 := List.append_cancel_left h2
    have h4 : settingsJsonBytes s1 = settingsJsonBytes s2 :=
      List.append_inj_left h3 rfl
    exact hne (settingsJsonBytes_injective h4)
  · intro fp s cv r1 r2 t ds hne
    apply hdfs
    intro h
    rw [List.cons.injEq, List.cons.injEq] at h
    exact hne h.1.1
  · intro s cv dfs pre post p c1 c2 hne h
    unfold compute_data_version at h
    dsimp only at h
    have h2 := encodeNatList_injective h
    simp only [hexChunk, List.flatMap_append, List.flatMap_cons,
      List.singleton_append, List.cons_append, List.append_assoc] at h2
    have h3 := List.append_cancel_left (List.append_cancel_left
      (List.append_cancel_left (List.append_cancel_left h2)))
    rw [List.cons.injEq] at h3
    exact hne (encodeNatList_injective h3.1)
  · intro s cv dfs pre post c p1 p2 hne h
    unfold compute_data_version at h
    dsimp only at h
    have h2 := encodeNatList_injective h
    simp only [hexChunk, List.flatMap_append, List.flatMap_cons,
      List.singleton_append, List.cons_append, List.append_assoc] at h2
    have h3 := List.append_cancel_left (List.append_cancel_left
      (List.append_cancel_left h2))
    exact hne (strBytes_injective (List.append_cancel_right h3))

/-- Closed instance of `data_version_pure_and_sensitive`: the same one-table
input hashes identically, and swapping two distinct rows, changing one
file's contents, or changing one file's path each change the digest. -/
theorem data_version_sensitivity_witness :
    compute_data_version none settingsFixture codeVersion
        (some [[[0], [1]]]) =
      compute_data_version none settingsFixture codeVersion
        (some [[[0], [1]]]) ∧
    compute_data_version none settingsFixture codeVersion
        (some [[[0], [1]]]) ≠
      compute_data_version none settingsFixture codeVersion
        (some [[[1], [0]]]) ∧
    compute_data_version (some [("f", [0])]) settingsFixture codeVersion
        none ≠
      compute_data_version (some [("f", [1])]) settingsFixture codeVersion
        none ∧
    compute_data_version (some [("f", [0])]) settingsFixture codeVersion
        none ≠
      compute_data_version (some [("g", [0])]) settingsFixture codeVersion
        none :=
  ⟨data_version_pure_and_sensitive.1 none settingsFixture codeVersion
      (some [[[0], [1]]]) none settingsFixture codeVersion
      (some [[[0], [1]]]) rfl rfl rfl rfl,
   data_version_pure_and_sensitive.2.2.2.2.1 none settingsFixture codeVersion
      [0] [1] [] [] (by decide),
   data_version_pure_and_sensitive.2.2.2.2.2.1 settingsFixture codeVersion
      none [] [] "f" [0] [1] (by decide),
   data_version_pure_and_sensitive.2.2.2.2.2.2 settingsFixture codeVersion
      none [] [] [0] "f" "g" (by decide)⟩
